import Mathlib

/-!
Verification of the output-recovery core of the aider-mcp server
(`src/unnamed/part_001`, first document, lines 1-470).

JavaScript strings are modelled as `List Char` (the log content in the
scenarios under test is ASCII, where UTF-16 code units, bytes and
characters coincide).  The regular expressions of
`parseLatestConversation` are modelled by direct, executable matchers
that follow the backtracking semantics of the JS regex engine for these
particular patterns; the derivations are recorded in comments next to
each matcher.  File-system state and the child process are modelled
explicitly: a file is `Option (List Char)` (`none` = absent or
unreadable) and the process is a `ProcOutcome` value.
-/

namespace AiderMcp

/-- Whitespace test matching the JS `\s` class and `String.prototype.trim`
on the ASCII range: space, tab, line feed, vertical tab, form feed,
carriage return.  (The Unicode-only members of `\s` do not occur in the
scenarios under test.) -/
def isWSChar (c : Char) : Bool :=
  c = ' ' || c = '\t' || c = '\n' || c = '\x0b' || c = '\x0c' || c = '\r'

/-- ASCII letter, the JS character class `[A-Za-z]`. -/
def isAsciiLetter (c : Char) : Bool :=
  ('A' ≤ c && c ≤ 'Z') || ('a' ≤ c && c ≤ 'z')

/-- ASCII digit, the JS character class `\d` (ASCII range). -/
def isDigitChar (c : Char) : Bool :=
  '0' ≤ c && c ≤ '9'

/-- Uppercase ASCII letter, the JS character class `[A-Z]`. -/
def isUpperChar (c : Char) : Bool :=
  'A' ≤ c && c ≤ 'Z'

/-- Model of `String.prototype.trim`: strip leading and trailing
whitespace. -/
def trimWS (s : List Char) : List Char :=
  ((s.dropWhile isWSChar).reverse.dropWhile isWSChar).reverse

/-- Model of `replace(/\s+/g, ' ')`: every maximal whitespace run is
replaced by a single space.  The space is emitted at the last character
of each run, which yields the same string as replacing the whole run. -/
def collapseWS : List Char → List Char
  | [] => []
  | c :: rest =>
    match rest with
    | [] => if isWSChar c then [' '] else [c]
    | d :: _ =>
      if isWSChar c then
        (if isWSChar d then collapseWS rest else ' ' :: collapseWS rest)
      else c :: collapseWS rest

/-- Normalisation applied by the source to an error match before
returning it: `match[0].trim()` followed by `.replace(/\s+/g, ' ').trim()`
(lines 159-162 of the source). -/
def wsNormalize (m : List Char) : List Char :=
  trimWS (collapseWS (trimWS m))

/-!
`splitFirst pat s` models the scan of a regex engine for the first
occurrence of the literal `pat` in `s`: it returns `some (b, a)` with
`s = b ++ pat ++ a` for the leftmost occurrence, and `none` when `pat`
does not occur in `s`.
-/

/-- First-occurrence split of `s` around the literal pattern `pat`. -/
def splitFirst (pat : List Char) : List Char → Option (List Char × List Char)
  | [] => if pat.isPrefixOf ([] : List Char) then some ([], []) else none
  | c :: rest =>
    if pat.isPrefixOf (c :: rest) then some ([], (c :: rest).drop pat.length)
    else
      match splitFirst pat rest with
      | some p => some (c :: p.1, p.2)
      | none => none

theorem splitFirst_sound {pat : List Char} :
    ∀ {s b a : List Char}, splitFirst pat s = some (b, a) → s = b ++ pat ++ a := by
  intro s
  induction s with
  | nil =>
    intro b a h
    simp only [splitFirst] at h
    by_cases hp : pat.isPrefixOf ([] : List Char)
    · rw [if_pos hp] at h
      have hpat : pat = [] := by
        have := List.isPrefixOf_iff_prefix.mp hp
        simpa using this
      cases h
      simp [hpat]
    · rw [if_neg hp] at h
      cases h
  | cons c rest ih =>
    intro b a h
    simp only [splitFirst] at h
    by_cases hp : pat.isPrefixOf (c :: rest)
    · rw [if_pos hp] at h
      cases h
      have hpre : pat <+: c :: rest := List.isPrefixOf_iff_prefix.mp hp
      obtain ⟨t, ht⟩ := hpre
      have hdrop : (c :: rest).drop pat.length = t := by
        rw [← ht, List.drop_left]
      rw [hdrop]
      simp [← ht]
    · rw [if_neg hp] at h
      cases hrec : splitFirst pat rest with
      | none => rw [hrec] at h; cases h
      | some p =>
        rw [hrec] at h
        cases h
        have := ih (b := p.1) (a := p.2) (by rw [hrec])
        simp [this]

theorem splitFirst_min {pat : List Char} :
    ∀ {s b a : List Char}, splitFirst pat s = some (b, a) →
      ∀ b2 a2, s = b2 ++ pat ++ a2 → b.length ≤ b2.length := by
  intro s
  induction s with
  | nil =>
    intro b a h b2 a2 hs
    simp only [splitFirst] at h
    by_cases hp : pat.isPrefixOf ([] : List Char)
    · rw [if_pos hp] at h
      cases h
      simp
    · rw [if_neg hp] at h
      cases h
  | cons c rest ih =>
    intro b a h b2 a2 hs
    simp only [splitFirst] at h
    by_cases hp : pat.isPrefixOf (c :: rest)
    · rw [if_pos hp] at h
      cases h
      simp
    · rw [if_neg hp] at h
      cases hrec : splitFirst pat rest with
      | none => rw [hrec] at h; cases h
      | some p =>
        rw [hrec] at h
        cases h
        cases b2 with
        | nil =>
          exfalso
          apply hp
          apply List.isPrefixOf_iff_prefix.mpr
          exact ⟨a2, by simpa using hs.symm⟩
        | cons c2 b2t =>
          have hcs : c :: rest = c2 :: (b2t ++ pat ++ a2) := by simpa using hs
          have htail : rest = b2t ++ pat ++ a2 := by
            injection hcs with h1 h2
          have := ih (b := p.1) (a := p.2) (by rw [hrec]) b2t a2 htail
          simpa using Nat.succ_le_succ this

theorem splitFirst_complete {pat : List Char} :
    ∀ {x y : List Char}, (splitFirst pat (x ++ pat ++ y)).isSome := by
  intro x
  induction x with
  | nil =>
    intro y
    cases hs : pat ++ y with
    | nil =>
      have hpat : pat = [] := by
        cases pat with
        | nil => rfl
        | cons a b => simp at hs
      subst hpat
      simp only [List.nil_append] at hs
      subst hs
      simp [splitFirst, List.isPrefixOf]
    | cons c rest =>
      have hp : pat.isPrefixOf (c :: rest) := by
        apply List.isPrefixOf_iff_prefix.mpr
        exact ⟨y, hs⟩
      simp only [List.nil_append, hs]
      simp only [splitFirst]
      rw [if_pos hp]
      rfl
  | cons c xt ih =>
    intro y
    simp only [List.cons_append]
    simp only [splitFirst]
    by_cases hp : pat.isPrefixOf (c :: (xt ++ pat ++ y))
    · rw [if_pos hp]
      rfl
    · rw [if_neg hp]
      have h2 := ih (y := y)
      cases hrec : splitFirst pat (xt ++ pat ++ y) with
      | none => rw [hrec] at h2; simp at h2
      | some p => simp

theorem splitFirst_none_of_no_occ {pat s : List Char}
    (h : ∀ x y : List Char, s ≠ x ++ pat ++ y) : splitFirst pat s = none := by
  cases hs : splitFirst pat s with
  | none => rfl
  | some p =>
    exfalso
    exact h p.1 p.2 (splitFirst_sound hs)

theorem splitFirst_isSome_infix {pat s : List Char}
    (h : pat <:+: s) : (splitFirst pat s).isSome := by
  obtain ⟨x, y, hxy⟩ := h
  rw [← hxy]
  exact splitFirst_complete

/-- Master computation lemma: when no occurrence of `pat` starts strictly
before the marked one, `splitFirst` cuts exactly there. -/
theorem splitFirst_eq_marked {pat : List Char} (hpat : pat ≠ []) :
    ∀ (x y : List Char),
      (∀ x1 x2 : List Char, x = x1 ++ x2 → x2 ≠ [] → ¬ pat <+: x2 ++ pat ++ y) →
      splitFirst pat (x ++ pat ++ y) = some (x, y) := by
  intro x
  induction x with
  | nil =>
    intro y _
    cases pat with
    | nil => exact absurd rfl hpat
    | cons pc pt =>
      have hp : (pc :: pt).isPrefixOf (pc :: (pt ++ y)) :=
        List.isPrefixOf_iff_prefix.mpr ⟨y, by simp⟩
      simp only [List.nil_append, List.cons_append]
      simp only [splitFirst]
      rw [if_pos hp]
      rw [show pc :: (pt ++ y) = (pc :: pt) ++ y from by simp]
      rw [List.drop_left]
  | cons c xt ih =>
    intro y h
    have hnp : ¬ pat.isPrefixOf (c :: (xt ++ pat ++ y)) := by
      intro hp
      exact h [] (c :: xt) rfl (by simp)
        (by simpa using List.isPrefixOf_iff_prefix.mp hp)
    have hrec : splitFirst pat (xt ++ pat ++ y) = some (xt, y) := by
      apply ih
      intro x1 x2 hx12 hx2
      exact h (c :: x1) x2 (by simp [hx12]) hx2
    simp only [List.cons_append]
    simp only [splitFirst]
    rw [if_neg hnp, hrec]

/-!
Summary-marker extraction, modelling
`chatContent.matchAll(/\n<summary>\s*(.*?)\s*<\/summary>/gs)` (source
line 129).  For this pattern the JS backtracking semantics reduce to:
a match starts at the leftmost occurrence of the literal `"\n<summary>"`
that is followed (anywhere) by a `"</summary>"`; the match ends at the
first `"</summary>"` after the opening tag; the scan continues right
after the closing tag.  The capture group is the text between the tags
with the edge whitespace absorbed by the two greedy `\s*`; since the
source always applies `.trim()` to the group (line 134), returning the
raw between-tags text and trimming later yields the same value.
-/

/-- The opening marker `"\n<summary>"` of the summary regex. -/
def sumOpen : List Char := ("\n<summary>").data

/-- The closing marker `"</summary>"` of the summary regex. -/
def sumClose : List Char := ("</summary>").data

/-- Fuelled scan for summary blocks; the fuel only serves structural
termination and is irrelevant whenever it is at least the length of the
string (`summaryBodiesAux_congr`). -/
def summaryBodiesAux : Nat → List Char → List (List Char)
  | 0, _ => []
  | fuel + 1, s =>
    match splitFirst sumOpen s with
    | none => []
    | some p1 =>
      match splitFirst sumClose p1.2 with
      | none => []
      | some p2 => p2.1 :: summaryBodiesAux fuel p2.2

/-- The raw bodies (text between tags, in order) of all summary-block
matches in `s`. -/
def summaryBodies (s : List Char) : List (List Char) :=
  summaryBodiesAux s.length s

theorem splitFirst_sumOpen_nil : splitFirst sumOpen ([] : List Char) = none := by
  simp [splitFirst, List.isPrefixOf, sumOpen]

theorem summaryBodiesAux_nil : ∀ n, summaryBodiesAux n [] = [] := by
  intro n
  cases n with
  | zero => rfl
  | succ m => simp [summaryBodiesAux, splitFirst_sumOpen_nil]

theorem summaryBodiesAux_succ_no_open {fuel : Nat} {s : List Char}
    (h : splitFirst sumOpen s = none) : summaryBodiesAux (fuel + 1) s = [] := by
  simp [summaryBodiesAux, h]

theorem summaryBodiesAux_succ_no_close {fuel : Nat} {s b1 a1 : List Char}
    (h1 : splitFirst sumOpen s = some (b1, a1))
    (h2 : splitFirst sumClose a1 = none) : summaryBodiesAux (fuel + 1) s = [] := by
  simp [summaryBodiesAux, h1, h2]

theorem summaryBodiesAux_succ_some {fuel : Nat} {s b1 a1 body rest : List Char}
    (h1 : splitFirst sumOpen s = some (b1, a1))
    (h2 : splitFirst sumClose a1 = some (body, rest)) :
    summaryBodiesAux (fuel + 1) s = body :: summaryBodiesAux fuel rest := by
  simp [summaryBodiesAux, h1, h2]

theorem rest_length_lt {s b1 a1 body rest : List Char}
    (h1 : splitFirst sumOpen s = some (b1, a1))
    (h2 : splitFirst sumClose a1 = some (body, rest)) :
    rest.length + 20 ≤ s.length := by
  have e1 : s = b1 ++ sumOpen ++ a1 := splitFirst_sound h1
  have e2 : a1 = body ++ sumClose ++ rest := splitFirst_sound h2
  rw [e1, e2]
  simp [sumOpen, sumClose]
  omega

theorem summaryBodiesAux_congr :
    ∀ (n m : Nat) (s : List Char), s.length ≤ n → s.length ≤ m →
      summaryBodiesAux n s = summaryBodiesAux m s := by
  intro n
  induction n with
  | zero =>
    intro m s hn _
    have hs : s = [] := List.length_eq_zero.mp (Nat.le_antisymm hn (Nat.zero_le _))
    subst hs
    rw [summaryBodiesAux_nil, summaryBodiesAux_nil]
  | succ k ih =>
    intro m s hn hm
    by_cases hs : s = []
    · subst hs
      rw [summaryBodiesAux_nil, summaryBodiesAux_nil]
    · have hpos : 1 ≤ s.length := by
        cases hsc : s with
        | nil => exact absurd hsc hs
        | cons c t => simp
      cases m with
      | zero => omega
      | succ m2 =>
        cases h1 : splitFirst sumOpen s with
        | none =>
          rw [summaryBodiesAux_succ_no_open h1, summaryBodiesAux_succ_no_open h1]
        | some p1 =>
          cases h2 : splitFirst sumClose p1.2 with
          | none =>
            rw [summaryBodiesAux_succ_no_close (by rw [h1]) h2,
              summaryBodiesAux_succ_no_close (by rw [h1]) h2]
          | some p2 =>
            rw [summaryBodiesAux_succ_some (by rw [h1]) (by rw [h2]),
              summaryBodiesAux_succ_some (by rw [h1]) (by rw [h2])]
            have hlen : p2.2.length + 20 ≤ s.length :=
              rest_length_lt (by rw [h1]) (by rw [h2])
            rw [ih m2 p2.2 (by omega) (by omega)]

theorem summaryBodies_cons {s b1 a1 body rest : List Char}
    (h1 : splitFirst sumOpen s = some (b1, a1))
    (h2 : splitFirst sumClose a1 = some (body, rest)) :
    summaryBodies s = body :: summaryBodies rest := by
  have hlen : rest.length + 20 ≤ s.length := rest_length_lt h1 h2
  have hfuel : ∃ k, s.length = k + 1 := by
    refine ⟨s.length - 1, ?_⟩
    omega
  obtain ⟨k, hk⟩ := hfuel
  unfold summaryBodies
  rw [hk, summaryBodiesAux_succ_some h1 h2]
  rw [summaryBodiesAux_congr k rest.length rest (by omega) (Nat.le_refl _)]

theorem summaryBodies_nil_of_no_open {s : List Char}
    (h : splitFirst sumOpen s = none) : summaryBodies s = [] := by
  cases hs : s.length with
  | zero =>
    have : s = [] := List.length_eq_zero.mp hs
    subst this
    rfl
  | succ k =>
    unfold summaryBodies
    rw [hs, summaryBodiesAux_succ_no_open h]

theorem summaryBodies_nil_of_no_close {s b1 a1 : List Char}
    (h1 : splitFirst sumOpen s = some (b1, a1))
    (h2 : splitFirst sumClose a1 = none) : summaryBodies s = [] := by
  cases hs : s.length with
  | zero =>
    have : s = [] := List.length_eq_zero.mp hs
    subst this
    rw [splitFirst_sumOpen_nil] at h1
    cases h1
  | succ k =>
    unfold summaryBodies
    rw [hs, summaryBodiesAux_succ_no_close h1 h2]

/-!
Error-pattern matching, modelling the five regexes of
`parseLatestConversation` (source lines 140-151), each of the form
`<head> (.*?) (?=\n\n|\n[A-Z]|\n$|$)` with the `gs` flags.  For each
regex the backtracking semantics reduce to an anchored matcher tried at
every position left to right (`scanMatches`), with the notes below
justifying each reduction:

* greedy `[A-Za-z]*` followed by a literal word and `:`: since the word
  consists of letters and `:` is not a letter, the only way the engine
  can match is to consume the whole maximal letter run, which must end
  with the word and be followed by `:`;
* greedy `\s*` (or `\s+`) followed by a non-whitespace literal or the
  lazy group: the run cannot be shortened, because every shorter cut
  leaves a whitespace character where a non-whitespace one is required,
  and the lookahead `$` always succeeds at the end of input, so the
  maximal whitespace run is always taken;
* lazy `(.*?)` with the lookahead: the group extends to the first
  position at which the lookahead holds (end of input, `"\n"` at end of
  input, `"\n\n"`, or `"\n"` followed by an uppercase ASCII letter).
-/

/-- The lookahead `(?=\n\n|\n[A-Z]|\n$|$)` (no `m` flag: `$` is end of
input only). -/
def lookaheadStop (t : List Char) : Bool :=
  match t with
  | [] => true
  | ['\n'] => true
  | '\n' :: d :: _ => d = '\n' || isUpperChar d
  | _ => false

/-- The lazy group `(.*?)` bounded by `lookaheadStop`: the shortest
prefix after which the lookahead holds. -/
def lazyBody : List Char → List Char
  | [] => []
  | c :: rest => if lookaheadStop (c :: rest) then [] else c :: lazyBody rest

/-- Anchored matcher for `/litellm\.[A-Za-z]*Error:\s*(.*?)(?=...)/`:
returns the full match text (`match[0]`) when the regex matches at the
head of `s`. -/
def tryLitellm (s : List Char) : Option (List Char) :=
  let tag := ("litellm.").data
  if tag.isPrefixOf s then
    let t := s.drop tag.length
    let run := t.takeWhile isAsciiLetter
    match t.drop run.length with
    | ':' :: t3 =>
      if ("Error").data.isSuffixOf run then
        let w := t3.takeWhile isWSChar
        let body := lazyBody (t3.drop w.length)
        some (tag ++ run ++ [':'] ++ w ++ body)
      else none
    | _ => none
  else none

/-- Anchored matcher for `/([A-Za-z]*<word>):\s*(.*?)(?=...)/` with
`<word>` instantiated to `Exception` or `Error` (source lines 144-146);
returns `match[0]`. -/
def tryWordColon (word : List Char) (s : List Char) : Option (List Char) :=
  let run := s.takeWhile isAsciiLetter
  match s.drop run.length with
  | ':' :: t3 =>
    if word.isSuffixOf run then
      let w := t3.takeWhile isWSChar
      let body := lazyBody (t3.drop w.length)
      some (run ++ [':'] ++ w ++ body)
    else none
  | _ => none

/-- Anchored matcher for
`/Traceback \(most recent call last\):(.*?)(?=...)/`. -/
def tryTraceback (s : List Char) : Option (List Char) :=
  let tag := ("Traceback (most recent call last):").data
  if tag.isPrefixOf s then
    some (tag ++ lazyBody (s.drop tag.length))
  else none

/-- Anchored matcher for `/HTTP\s+\d{3}\s+Error:(.*?)(?=...)/`. -/
def tryHttp (s : List Char) : Option (List Char) :=
  if ("HTTP").data.isPrefixOf s then
    let t := s.drop 4
    let w1 := t.takeWhile isWSChar
    if w1.isEmpty then none
    else
      match t.drop w1.length with
      | d1 :: d2 :: d3 :: t3 =>
        if isDigitChar d1 && isDigitChar d2 && isDigitChar d3 then
          let w2 := t3.takeWhile isWSChar
          if w2.isEmpty then none
          else
            let t4 := t3.drop w2.length
            if ("Error:").data.isPrefixOf t4 then
              some (("HTTP").data ++ w1 ++ [d1, d2, d3] ++ w2 ++
                ("Error:").data ++ lazyBody (t4.drop 6))
            else none
        else none
      | _ => none
  else none

/-- Fuelled scan modelling `matchAll` with the `g` flag: the anchored
matcher is tried at every position left to right; after a match the scan
resumes at the end of the match (after a hypothetical empty match it
would advance one position, as `matchAll` does). -/
def scanAux (tryA : List Char → Option (List Char)) : Nat → List Char → List (List Char)
  | 0, _ => []
  | _ + 1, [] => []
  | fuel + 1, c :: rest =>
    match tryA (c :: rest) with
    | some m =>
      if m.isEmpty then m :: scanAux tryA fuel rest
      else m :: scanAux tryA fuel ((c :: rest).drop m.length)
    | none => scanAux tryA fuel rest

/-- All matches (`match[0]` texts, in order) of the anchored matcher
`tryA` over `s`, modelling `Array.from(s.matchAll(pattern))`. -/
def scanMatches (tryA : List Char → Option (List Char)) (s : List Char) : List (List Char) :=
  scanAux tryA s.length s

/-- Matches of the first error pattern (LiteLLM / API errors). -/
def litellmMatches (s : List Char) : List (List Char) :=
  scanMatches tryLitellm s

/-- Matches of the second error pattern (general `Exception`). -/
def exceptionMatches (s : List Char) : List (List Char) :=
  scanMatches (tryWordColon ("Exception").data) s

/-- Matches of the third error pattern (general `Error`). -/
def generalErrorMatches (s : List Char) : List (List Char) :=
  scanMatches (tryWordColon ("Error").data) s

/-- Matches of the fourth error pattern (traceback header). -/
def tracebackMatches (s : List Char) : List (List Char) :=
  scanMatches tryTraceback s

/-- Matches of the fifth error pattern (HTTP status-code error). -/
def httpErrorMatches (s : List Char) : List (List Char) :=
  scanMatches tryHttp s

/-- The match lists of the five error patterns, in the priority order of
the `errorPatterns` array (source lines 140-151). -/
def errorPatternMatchList (s : List Char) : List (List (List Char)) :=
  [litellmMatches s, exceptionMatches s, generalErrorMatches s,
    tracebackMatches s, httpErrorMatches s]

/-- The `for (const pattern of errorPatterns)` loop (source lines
153-167): the first pattern with at least one match contributes its last
match, normalised by `wsNormalize`. -/
def firstMatchingPattern : List (List (List Char)) → Option (List Char)
  | [] => none
  | ms :: rest =>
    match ms.getLast? with
    | some m => some (wsNormalize m)
    | none => firstMatchingPattern rest

/-- The `type` tag of the object returned by `parseLatestConversation`. -/
inductive ContentType where
  | summary
  | error
  | none
deriving DecidableEq

/-- The `{ type, content }` object returned by `parseLatestConversation`. -/
structure ParsedContent where
  type : ContentType
  content : List Char
deriving DecidableEq

/-- Model of `parseLatestConversation` (source lines 123-171): summary
blocks win; otherwise the first error pattern with a match contributes
its last match; otherwise `{ type: 'none', content: "" }`. -/
def parseLatestConversation (chatContent : List Char) : ParsedContent :=
  match (summaryBodies chatContent).getLast? with
  | some body => ⟨ContentType.summary, trimWS body⟩
  | Option.none =>
    match firstMatchingPattern (errorPatternMatchList chatContent) with
    | some e => ⟨ContentType.error, e⟩
    | Option.none => ⟨ContentType.none, []⟩

/-!
The reconciler pipeline.  File-system reads are modelled by passing the
observable state explicitly: the pre-run stat result is
`Option Nat` (`none` = file absent or `statSync` failed, both of which
leave `preSize = 0` in the source) and the post-run file content is
`Option (List Char)` (`none` = `existsSync` false or `readFileSync`
threw).  The child process is a `ProcOutcome` value describing what the
spawned process did.
-/

/-- Observable behaviour of the spawned `aider` child process. -/
inductive ProcOutcome where
  | exited (code : Nat) (stdout stderr : List Char)
  | spawnFailed (msg : List Char)
deriving DecidableEq

/-- The `{stdout, stderr, exitCode}` object `executeAider` resolves
with. -/
structure RawResult where
  stdout : List Char
  stderr : List Char
  exitCode : Nat
deriving DecidableEq

/-- The exceptions that can propagate out of the pipeline: the rejection
of `executeAider` on nonzero exit (source line 234), its rejection on a
spawn failure (line 239), and the `TypeError` thrown at source line 93
when `recoveredContent.content` is `undefined` because
`extractNewChatContent` returned the bare string `""`. -/
inductive JsError where
  | nonZeroExit (code : Nat) (stderr : List Char)
  | spawnError (msg : List Char)
  | typeErrorUndefinedLength
deriving DecidableEq

/-- The `error.message` texts of the exceptions above.  (The `TypeError`
message text is abridged; only its occurrence matters here.) -/
def JsError.message : JsError → List Char
  | .nonZeroExit code stderr =>
    ("Aider CLI exited with code ").data ++ (Nat.repr code).data ++ (": ").data ++ stderr
  | .spawnError msg => ("Failed to spawn Aider CLI: ").data ++ msg
  | .typeErrorUndefinedLength =>
    ("Cannot read properties of undefined (reading length)").data

/-- Model of `executeAider` (source lines 204-242): resolves with the
raw result on exit code 0, rejects with the exit-code/stderr message on
nonzero exit, rejects with a spawn error when the process could not be
started.  A single attempt; no retry. -/
def executeAider (p : ProcOutcome) : Except JsError RawResult :=
  match p with
  | .spawnFailed msg => Except.error (JsError.spawnError msg)
  | .exited code out err =>
    if code = 0 then Except.ok ⟨out, err, code⟩
    else Except.error (JsError.nonZeroExit code err)

/-- The value returned by `extractNewChatContent` (source lines
107-120): the bare string `""` on a missing or unreadable file, or the
`{type, content}` object produced by `parseLatestConversation`. -/
inductive RecoveredContent where
  | emptyString
  | parsed (p : ParsedContent)
deriving DecidableEq

/-- JS property access `recoveredContent.content`: on the bare string
`""` the property is `undefined` (`Option.none` here); on the parsed
object it is the content string. -/
def RecoveredContent.contentProp : RecoveredContent → Option (List Char)
  | .emptyString => Option.none
  | .parsed p => some p.content

/-- The suffix taken by `extractNewChatContent`:
`content.slice(preSize)` (source line 114).  `String.prototype.slice`
with a start index at or beyond the length returns the empty string. -/
def readWindow (content : List Char) (preSize : Nat) : List Char :=
  content.drop preSize

/-- Model of `extractNewChatContent` (source lines 107-120).  `file` is
the post-run log state: `none` when `existsSync` is false or the read
throws (both return the bare `""`), `some content` when the read
succeeds. -/
def extractNewChatContent (file : Option (List Char)) (preSize : Nat) : RecoveredContent :=
  match file with
  | Option.none => RecoveredContent.emptyString
  | some content => RecoveredContent.parsed (parseLatestConversation (readWindow content preSize))

/-- The `{summary, error, successful}` object of `analyzeCompleteOutput`. -/
structure AnalysisResult where
  summary : Option (List Char)
  error : Option (List Char)
  successful : Bool
deriving DecidableEq

set_option linter.unusedVariables false in
/-- Model of `analyzeCompleteOutput` (source lines 174-195).  The JS
truthiness guard `recoveredResult && recoveredResult.content &&
recoveredResult.content.trim()` is false for the bare `""` (falsy
value), for an object with empty content, and for content that trims to
empty.  `successful` is computed as on source line 188:
`summary !== null && error === null`.  The `truncatedOutput` parameter
is accepted and ignored exactly as in the source. -/
def analyzeCompleteOutput (truncatedOutput : List Char) (recoveredResult : RecoveredContent) :
    AnalysisResult :=
  let se : Option (List Char) × Option (List Char) :=
    match recoveredResult with
    | RecoveredContent.emptyString => (Option.none, Option.none)
    | RecoveredContent.parsed p =>
      if !p.content.isEmpty && !(trimWS p.content).isEmpty then
        match p.type with
        | ContentType.summary => (some (trimWS p.content), Option.none)
        | ContentType.error => (Option.none, some (trimWS p.content))
        | ContentType.none => (Option.none, Option.none)
      else (Option.none, Option.none)
  ⟨se.1, se.2, se.1.isSome && se.2.isNone⟩

/-- The `EnhancedAiderResult` object (source lines 16-26). -/
structure EnhancedAiderResult where
  summary : Option (List Char)
  error : Option (List Char)
  executionSuccessful : Bool
deriving DecidableEq

/-- Side effects of one tool invocation, used to state that the early
error returns of `executeAiderCommand` spawn no process and touch no
log file. -/
inductive Effect where
  | statLog
  | spawnProcess
  | readLog
deriving DecidableEq

/-- The observable world of one invocation: what the child process does
and the log-file state before (stat result) and after (content) the
run. -/
structure World where
  procOutcome : ProcOutcome
  preLogSize : Option Nat
  postLog : Option (List Char)
deriving DecidableEq

/-- The `preSize` capture (source lines 71-78): 0 when the file is
absent or `statSync` throws, the stat size otherwise. -/
def capturePreSize (pre : Option Nat) : Nat := pre.getD 0

/-- Model of `executeAiderWithRecovery` (source lines 63-104) as a
function of the observable world, together with the side effects
performed.  The debug log at source line 93 accesses
`recoveredContent.content.length`; when `extractNewChatContent` returned
the bare string `""` that access throws a `TypeError`, which makes the
async function reject. -/
def executeAiderWithRecovery (w : World) : Except JsError EnhancedAiderResult × List Effect :=
  let preSize := capturePreSize w.preLogSize
  match executeAider w.procOutcome with
  | Except.error e => (Except.error e, [Effect.statLog, Effect.spawnProcess])
  | Except.ok raw =>
    let recovered := extractNewChatContent w.postLog preSize
    match recovered.contentProp with
    | Option.none =>
      (Except.error JsError.typeErrorUndefinedLength,
        [Effect.statLog, Effect.spawnProcess, Effect.readLog])
    | some _ =>
      let analysis := analyzeCompleteOutput raw.stdout recovered
      (Except.ok ⟨analysis.summary, analysis.error, analysis.successful⟩,
        [Effect.statLog, Effect.spawnProcess, Effect.readLog])

/-- JS truthiness of an optional string field: `null` and `""` are
falsy. -/
def optTruthy : Option (List Char) → Bool
  | Option.none => false
  | some s => !s.isEmpty

/-- Model of `formatEnhancedOutput` (source lines 251-269). -/
def formatEnhancedOutput (r : EnhancedAiderResult) : List Char :=
  if optTruthy r.error then ("🚨 Error Detected:\n").data ++ r.error.getD []
  else if optTruthy r.summary then ("📋 Summary:\n").data ++ r.summary.getD []
  else if r.executionSuccessful then
    ("✅ Aider completed successfully (no summary generated)").data
  else ("❌ Aider execution completed but no summary was generated").data

/-- The tool-call arguments that influence the control flow modelled
here (flag assembly for the child process is out of scope). -/
structure ToolRequest where
  workingDir : Option (List Char)
  files : List (List Char)
  architectMode : Bool
deriving DecidableEq

/-- The early-return text for a root working directory (source line 291). -/
def rootErrorText : List Char :=
  ("⛔ ERROR: Cannot execute Aider in the root directory for safety reasons. Please specify a valid project directory.").data

/-- The early-return text for more than 10 files (source line 332). -/
def tooManyFilesText : List Char :=
  ("⛔ ERROR: Too many files specified. Aider supports a maximum of 10 files per command to ensure performance and reliability.").data

/-- The mode name used in the catch-all error message (source line 361). -/
def modeName (architectMode : Bool) : List Char :=
  if architectMode then ("architect mode").data else ("CLI").data

/-- Model of `executeAiderCommand` (source lines 272-369): the returned
user-visible text together with the side effects performed.  Checks in
source order: the root-directory guard (line 287), then the
more-than-10-files guard (line 327, reached only when `files` is
nonempty, which `length > 10` implies), then the recovery pipeline whose
rejection is caught and converted to the error-prefixed message (lines
360-368). -/
def executeAiderCommand (req : ToolRequest) (cwd : List Char) (w : World) :
    List Char × List Effect :=
  let targetDir := req.workingDir.getD cwd
  if targetDir = ("/").data then (rootErrorText, [])
  else if 10 < req.files.length then (tooManyFilesText, [])
  else
    match executeAiderWithRecovery w with
    | (Except.ok r, effs) => (formatEnhancedOutput r, effs)
    | (Except.error e, effs) =>
      (("Error executing Aider ").data ++ modeName req.architectMode ++
        (": ").data ++ e.message, effs)

/-!
String lemmas used to locate summary markers inside concatenations.
The two markers have no internal `<` (closing) or line feed (opening)
after their first character, so no occurrence of a marker can straddle
the written-out marker boundaries; the bounded `decide` lemmas below
capture these facts.
-/

theorem head_eq_of_isPrefix {p s : List Char} (h : p <+: s) (hp : p ≠ []) :
    s.head? = p.head? := by
  obtain ⟨t, ht⟩ := h
  cases p with
  | nil => exact absurd rfl hp
  | cons c p2 =>
    rw [← ht]
    rfl

theorem prefix_split_left {p a b : List Char} (h : p <+: a ++ b)
    (hlen : p.length ≤ a.length) : p <+: a := by
  have h1 : p = (a ++ b).take p.length := List.prefix_iff_eq_take.mp h
  rw [List.take_append_of_le_length hlen] at h1
  rw [h1]
  exact List.take_prefix _ _

theorem prefix_split_right {p a b : List Char} (h : p <+: a ++ b)
    (hlen : a.length ≤ p.length) : ∃ r, p = a ++ r ∧ r <+: b := by
  have ha : a <+: p :=
    List.prefix_of_prefix_length_le (List.prefix_append a b) h hlen
  obtain ⟨r, hr⟩ := ha
  obtain ⟨t, ht⟩ := h
  refine ⟨r, hr.symm, t, ?_⟩
  have : (a ++ r) ++ t = a ++ b := by rw [hr, ht]
  rw [List.append_assoc] at this
  exact List.append_cancel_left this

theorem suffix_split {l a b : List Char} (h : l <:+ a ++ b) :
    l <:+ b ∨ ∃ a2, a2 <:+ a ∧ a2 ≠ [] ∧ l = a2 ++ b := by
  obtain ⟨t, ht⟩ := h
  have hlt : l = (a ++ b).drop t.length := by
    rw [← ht, List.drop_left]
  have hlen : t.length + l.length = a.length + b.length := by
    have := congrArg List.length ht
    simpa using this
  by_cases hb : l.length ≤ b.length
  · left
    have hta : a.length ≤ t.length := by omega
    have : l = b.drop (t.length - a.length) := by
      rw [hlt]
      have : (a ++ b).drop t.length = ((a ++ b).drop a.length).drop (t.length - a.length) := by
        rw [List.drop_drop]
        congr 1
        omega
      rw [this, List.drop_left]
    rw [this]
    exact List.drop_suffix _ _
  · right
    have hta : t.length ≤ a.length := by omega
    have htp : t <+: a := prefix_split_left ⟨l, ht⟩ hta
    obtain ⟨a2, ha2⟩ := htp
    refine ⟨a2, ⟨t, ha2⟩, ?_, ?_⟩
    · intro h2
      subst h2
      simp at ha2
      subst ha2
      omega
    · have : t ++ l = (t ++ a2) ++ b := by rw [ha2, ht]
      rw [List.append_assoc] at this
      exact List.append_cancel_left this

theorem append_suffix_mono {l m x : List Char} (h : l <:+ m) : l ++ x <:+ m ++ x := by
  obtain ⟨t, ht⟩ := h
  exact ⟨t, by rw [← ht, List.append_assoc]⟩

theorem sumOpen_length : sumOpen.length = 10 := by decide

theorem sumClose_length : sumClose.length = 10 := by decide

theorem sumClose_head : sumClose.head? = some '<' := by decide

theorem sumOpen_cons : sumOpen = '\n' :: ("<summary>").data := by decide

theorem sumClose_drop_head_ne_lt :
    ∀ k, k < 10 → k ≠ 0 → (sumClose.drop k).head? ≠ some '<' := by decide

theorem sumClose_drop_head_ne_nl :
    ∀ k, k < 10 → (sumClose.drop k).head? ≠ some '\n' := by decide

theorem sumOpen_drop_head_ne_nl :
    ∀ k, k < 10 → k ≠ 0 → (sumOpen.drop k).head? ≠ some '\n' := by decide

theorem sumOpen_drop_not_prefix_close :
    ∀ k, k < 10 → k ≠ 0 → ¬ (sumOpen.drop k <+: sumClose) := by decide

theorem head_of_open_app (x : List Char) : (sumOpen ++ x).head? = some '\n' := by
  rw [sumOpen_cons]
  rfl

theorem sumClose_cons : sumClose = '<' :: ("/summary>").data := by decide

theorem head_of_close_app (x : List Char) : (sumClose ++ x).head? = some '<' := by
  rw [sumClose_cons]
  rfl

/-- A nonempty proper suffix of `sumClose` never begins with `<`. -/
theorem suffix_close_head_ne_lt {r : List Char} (hr : r <:+ sumClose) (hne : r ≠ [])
    (hproper : r ≠ sumClose) : r.head? ≠ some '<' := by
  have hd := List.suffix_iff_eq_drop.mp hr
  have hlen : r.length ≤ 10 := by
    have := List.IsSuffix.length_le hr
    rw [sumClose_length] at this
    exact this
  have hpos : 0 < r.length := List.length_pos.mpr hne
  have hlt : r.length < 10 := by
    rcases Nat.lt_or_ge r.length 10 with h | h
    · exact h
    · exfalso
      apply hproper
      have : r.length = 10 := by omega
      rw [hd, sumClose_length, this]
      simp
  rw [hd, sumClose_length]
  exact sumClose_drop_head_ne_lt _ (by omega) (by omega)

/-- A nonempty suffix of `sumClose` never begins with a line feed. -/
theorem suffix_close_head_ne_nl {r : List Char} (hr : r <:+ sumClose) (hne : r ≠ []) :
    r.head? ≠ some '\n' := by
  have hd := List.suffix_iff_eq_drop.mp hr
  have hpos : 0 < r.length := List.length_pos.mpr hne
  have hlen : r.length ≤ 10 := by
    have := List.IsSuffix.length_le hr
    rw [sumClose_length] at this
    exact this
  rw [hd, sumClose_length]
  exact sumClose_drop_head_ne_nl _ (by omega)

/-- A nonempty proper suffix of `sumOpen` never begins with a line feed. -/
theorem suffix_open_head_ne_nl {r : List Char} (hr : r <:+ sumOpen) (hne : r ≠ [])
    (hproper : r ≠ sumOpen) : r.head? ≠ some '\n' := by
  have hd := List.suffix_iff_eq_drop.mp hr
  have hpos : 0 < r.length := List.length_pos.mpr hne
  have hlen : r.length ≤ 10 := by
    have := List.IsSuffix.length_le hr
    rw [sumOpen_length] at this
    exact this
  have hlt : r.length < 10 := by
    rcases Nat.lt_or_ge r.length 10 with h | h
    · exact h
    · exfalso
      apply hproper
      have : r.length = 10 := by omega
      rw [hd, sumOpen_length, this]
      simp
  rw [hd, sumOpen_length]
  exact sumOpen_drop_head_ne_nl _ (by omega) (by omega)

/-- A nonempty proper suffix of `sumOpen` is never a prefix of
`sumClose`. -/
theorem suffix_open_not_prefix_close {r : List Char} (hr : r <:+ sumOpen) (hne : r ≠ [])
    (hproper : r ≠ sumOpen) : ¬ (r <+: sumClose) := by
  have hd := List.suffix_iff_eq_drop.mp hr
  have hpos : 0 < r.length := List.length_pos.mpr hne
  have hlen : r.length ≤ 10 := by
    have := List.IsSuffix.length_le hr
    rw [sumOpen_length] at this
    exact this
  have hlt : r.length < 10 := by
    rcases Nat.lt_or_ge r.length 10 with h | h
    · exact h
    · exfalso
      apply hproper
      have : r.length = 10 := by omega
      rw [hd, sumOpen_length, this]
      simp
  rw [hd, sumOpen_length]
  exact sumOpen_drop_not_prefix_close _ (by omega) (by omega)

/-- No occurrence of `sumClose` starts inside a text `X` that does not
contain it, when the text is followed by `sumClose` itself. -/
theorem close_no_occ_within {X : List Char} (hX : ¬ sumClose <:+: X) (rest : List Char) :
    ∀ z2, z2 <:+ X → z2 ≠ [] → ¬ sumClose <+: z2 ++ sumClose ++ rest := by
  intro z2 hsuf hne hpre
  rw [List.append_assoc] at hpre
  by_cases hlen : sumClose.length ≤ z2.length
  · have h1 : sumClose <+: z2 := prefix_split_left hpre hlen
    exact hX (h1.isInfix.trans hsuf.isInfix)
  · obtain ⟨r, hr, hrpre⟩ := prefix_split_right hpre (by omega)
    have hrsuf : r <:+ sumClose := ⟨z2, hr.symm⟩
    have hrne : r ≠ [] := by
      intro h2
      subst h2
      have := congrArg List.length hr
      simp at this
      omega
    have hrproper : r ≠ sumClose := by
      intro h2
      apply hne
      apply List.length_eq_zero.mp
      have h3 := congrArg List.length hr
      rw [h2] at h3
      simp only [List.length_append] at h3
      omega
    have hhd : r.head? = some '<' :=
      (head_eq_of_isPrefix hrpre hrne).symm.trans (head_of_close_app rest)
    exact suffix_close_head_ne_lt hrsuf hrne hrproper hhd

/-- No occurrence of `sumClose` starts inside a suffix of
`u ++ sumOpen ++ A` when neither `u` nor `A` contains `sumClose`. -/
theorem close_no_occ_suffix {u A : List Char} (hu : ¬ sumClose <:+: u)
    (hA : ¬ sumClose <:+: A) (rest : List Char) :
    ∀ z2, z2 <:+ u ++ sumOpen ++ A → z2 ≠ [] → ¬ sumClose <+: z2 ++ sumClose ++ rest := by
  intro z2 hsuf hne hpre
  rcases suffix_split hsuf with hzA | ⟨a2, ha2suf, ha2ne, ha2eq⟩
  · exact close_no_occ_within hA rest z2 hzA hne hpre
  · subst ha2eq
    rw [List.append_assoc, List.append_assoc] at hpre
    rcases suffix_split ha2suf with hopen | ⟨q, hqsuf, hqne, hqeq⟩
    · by_cases hfull : a2 = sumOpen
      · subst hfull
        have hhd : sumClose.head? = (sumOpen ++ (A ++ (sumClose ++ rest))).head? :=
          (head_eq_of_isPrefix hpre (by
            intro h2
            have := congrArg List.length h2
            rw [sumClose_length] at this
            simp at this)).symm
        rw [sumClose_head, head_of_open_app] at hhd
        cases hhd
      · have hlen : a2.length < sumClose.length := by
          have h1 := List.IsSuffix.length_le hopen
          rw [sumOpen_length] at h1
          rw [sumClose_length]
          rcases Nat.lt_or_ge a2.length 10 with h | h
          · exact h
          · exfalso
            apply hfull
            have hd := List.suffix_iff_eq_drop.mp hopen
            have : a2.length = 10 := by omega
            rw [hd, sumOpen_length, this]
            simp
        obtain ⟨r, hr, hrpre⟩ := prefix_split_right hpre (by omega)
        have ha2prefix : a2 <+: sumClose := ⟨r, hr.symm⟩
        exact suffix_open_not_prefix_close hopen ha2ne hfull ha2prefix
    · subst hqeq
      rw [List.append_assoc] at hpre
      by_cases hlen : sumClose.length ≤ q.length
      · have h1 : sumClose <+: q := prefix_split_left hpre hlen
        exact hu (h1.isInfix.trans hqsuf.isInfix)
      · obtain ⟨r, hr, hrpre⟩ := prefix_split_right hpre (by omega)
        have hrsuf : r <:+ sumClose := ⟨q, hr.symm⟩
        have hrne : r ≠ [] := by
          intro h2
          subst h2
          have := congrArg List.length hr
          simp at this
          omega
        have hhd : r.head? = some '\n' :=
          (head_eq_of_isPrefix hrpre hrne).symm.trans (head_of_open_app _)
        exact suffix_close_head_ne_nl hrsuf hrne hhd

/-- No occurrence of `sumOpen` starts inside a text `v` that does not
contain it, when the text is followed by `sumOpen` itself. -/
theorem open_no_occ_within {v : List Char} (hv : ¬ sumOpen <:+: v) (rest : List Char) :
    ∀ z2, z2 <:+ v → z2 ≠ [] → ¬ sumOpen <+: z2 ++ sumOpen ++ rest := by
  intro z2 hsuf hne hpre
  rw [List.append_assoc] at hpre
  by_cases hlen : sumOpen.length ≤ z2.length
  · have h1 : sumOpen <+: z2 := prefix_split_left hpre hlen
    exact hv (h1.isInfix.trans hsuf.isInfix)
  · obtain ⟨r, hr, hrpre⟩ := prefix_split_right hpre (by omega)
    have hrsuf : r <:+ sumOpen := ⟨z2, hr.symm⟩
    have hrne : r ≠ [] := by
      intro h2
      subst h2
      have := congrArg List.length hr
      simp at this
      omega
    have hrproper : r ≠ sumOpen := by
      intro h2
      apply hne
      apply List.length_eq_zero.mp
      have h3 := congrArg List.length hr
      rw [h2] at h3
      simp only [List.length_append] at h3
      omega
    have hhd : r.head? = some '\n' :=
      (head_eq_of_isPrefix hrpre hrne).symm.trans (head_of_open_app _)
    exact suffix_open_head_ne_nl hrsuf hrne hrproper hhd

/-- A suffix containing exactly two well-formed summary blocks (bodies
`A` then `B`) produces a two-element match list whose last element is
the raw body `B`.  `u` may contain stray opening tags (the first match
then starts there and swallows text up to the close of block `A`), but
no closing tag; `v` may contain closing tags but no opening tag; `w`
contains no block at all. -/
theorem summaryBodies_two_blocks (u A v B w s : List Char)
    (hs : s = u ++ sumOpen ++ A ++ sumClose ++ v ++ sumOpen ++ B ++ sumClose ++ w)
    (hu : ¬ sumClose <:+: u) (hA : ¬ sumClose <:+: A)
    (hv : ¬ sumOpen <:+: v) (hB : ¬ sumClose <:+: B)
    (hw : summaryBodies w = []) :
    ∃ z, summaryBodies s = [z, B] := by
  have hsr : s = u ++ sumOpen ++ (A ++ (sumClose ++
      (v ++ sumOpen ++ (B ++ sumClose ++ w)))) := by
    rw [hs]
    simp [List.append_assoc]
  have hinf : sumOpen <:+: s :=
    ⟨u, A ++ (sumClose ++ (v ++ sumOpen ++ (B ++ sumClose ++ w))), by rw [hsr]⟩
  have hsome := splitFirst_isSome_infix hinf
  cases hsf : splitFirst sumOpen s with
  | none => rw [hsf] at hsome; simp at hsome
  | some p =>
    obtain ⟨b1, a1⟩ := p
    have hsound : s = b1 ++ sumOpen ++ a1 := splitFirst_sound hsf
    have hmin : b1.length ≤ u.length :=
      splitFirst_min hsf u (A ++ (sumClose ++ (v ++ sumOpen ++ (B ++ sumClose ++ w)))) hsr
    have hp1a : b1 ++ sumOpen <+: s := ⟨a1, by rw [hsound]⟩
    have hp1b : u ++ sumOpen <+: s :=
      ⟨A ++ (sumClose ++ (v ++ sumOpen ++ (B ++ sumClose ++ w))), by rw [hsr]⟩
    have hp1 : b1 ++ sumOpen <+: u ++ sumOpen :=
      List.prefix_of_prefix_length_le hp1a hp1b (by simp; omega)
    obtain ⟨z0, hz0⟩ := hp1
    have e1 : (b1 ++ sumOpen) ++ a1 =
        (b1 ++ sumOpen) ++ (z0 ++ (A ++ (sumClose ++
          (v ++ sumOpen ++ (B ++ sumClose ++ w))))) := by
      calc (b1 ++ sumOpen) ++ a1 = s := by rw [hsound]
        _ = (u ++ sumOpen) ++ (A ++ (sumClose ++
            (v ++ sumOpen ++ (B ++ sumClose ++ w)))) := by rw [hsr]
        _ = ((b1 ++ sumOpen) ++ z0) ++ (A ++ (sumClose ++
            (v ++ sumOpen ++ (B ++ sumClose ++ w)))) := by rw [hz0]
        _ = (b1 ++ sumOpen) ++ (z0 ++ (A ++ (sumClose ++
            (v ++ sumOpen ++ (B ++ sumClose ++ w))))) := by rw [List.append_assoc]
    have ha1 := List.append_cancel_left e1
    have hz0suf : z0 <:+ u ++ sumOpen := ⟨b1 ++ sumOpen, hz0⟩
    have hcond1 : ∀ x1 x2 : List Char, z0 ++ A = x1 ++ x2 → x2 ≠ [] →
        ¬ sumClose <+: x2 ++ sumClose ++ (v ++ sumOpen ++ (B ++ sumClose ++ w)) := by
      intro x1 x2 hx hx2
      apply close_no_occ_suffix hu hA _ x2 ?_ hx2
      have hx2suf : x2 <:+ z0 ++ A := ⟨x1, hx.symm⟩
      exact hx2suf.trans (append_suffix_mono hz0suf)
    have hmark1 := @splitFirst_eq_marked sumClose (by decide) (z0 ++ A)
      (v ++ sumOpen ++ (B ++ sumClose ++ w)) hcond1
    have ha1g : a1 = (z0 ++ A) ++ sumClose ++ (v ++ sumOpen ++ (B ++ sumClose ++ w)) := by
      rw [ha1]
      simp [List.append_assoc]
    have h2 : splitFirst sumClose a1 =
        some (z0 ++ A, v ++ sumOpen ++ (B ++ sumClose ++ w)) := by
      rw [ha1g]
      exact hmark1
    have hcond2 : ∀ x1 x2 : List Char, v = x1 ++ x2 → x2 ≠ [] →
        ¬ sumOpen <+: x2 ++ sumOpen ++ (B ++ sumClose ++ w) := by
      intro x1 x2 hx hx2
      exact open_no_occ_within hv _ x2 ⟨x1, hx.symm⟩ hx2
    have hmark2 : splitFirst sumOpen (v ++ sumOpen ++ (B ++ sumClose ++ w)) =
        some (v, B ++ sumClose ++ w) :=
      splitFirst_eq_marked (by decide) v (B ++ sumClose ++ w) hcond2
    have hcond3 : ∀ x1 x2 : List Char, B = x1 ++ x2 → x2 ≠ [] →
        ¬ sumClose <+: x2 ++ sumClose ++ w := by
      intro x1 x2 hx hx2
      exact close_no_occ_within hB _ x2 ⟨x1, hx.symm⟩ hx2
    have hmark3 : splitFirst sumClose (B ++ sumClose ++ w) = some (B, w) :=
      splitFirst_eq_marked (by decide) B w hcond3
    refine ⟨z0 ++ A, ?_⟩
    rw [summaryBodies_cons hsf h2,
      summaryBodies_cons hmark2 hmark3, hw]

/-- Characterisation of the pattern-priority loop: if the first `k`
match lists are empty and the `k`-th is nonempty with last element `m`,
the loop returns the normalised `m`. -/
theorem firstMatchingPattern_eq :
    ∀ (L : List (List (List Char))) (k : Nat) (ms : List (List Char)) (m : List Char),
      (∀ j, j < k → L[j]? = some []) → L[k]? = some ms → ms.getLast? = some m →
      firstMatchingPattern L = some (wsNormalize m) := by
  intro L
  induction L with
  | nil =>
    intro k ms m _ hk _
    rw [List.getElem?_nil] at hk
    cases hk
  | cons hd tl ih =>
    intro k ms m hprev hk hlast
    cases k with
    | zero =>
      rw [List.getElem?_cons_zero] at hk
      cases hk
      simp [firstMatchingPattern, hlast]
    | succ k2 =>
      have h0 : hd = [] := by
        have h1 := hprev 0 (Nat.succ_pos k2)
        rw [List.getElem?_cons_zero] at h1
        cases h1
        rfl
      subst h0
      have hstep : firstMatchingPattern ([] :: tl) = firstMatchingPattern tl := by
        simp [firstMatchingPattern]
      rw [hstep]
      rw [List.getElem?_cons_succ] at hk
      apply ih k2 ms m ?_ hk hlast
      intro j hj
      have h2 := hprev (j + 1) (Nat.succ_lt_succ hj)
      rw [List.getElem?_cons_succ] at h2
      exact h2

/-- C1: the spec demands that an absent (or unreadable) log file never
makes the reconciler fail: `readWindow` should yield the empty suffix,
classification `None`, and the reconciler the degraded result
`{summary: null, error: null, succeeded: false}`.  The code instead
throws: `extractNewChatContent` returns the bare string `""`, and the
debug log at source line 93 then evaluates
`recoveredContent.content.length`, a `TypeError`, so
`executeAiderWithRecovery` rejects on this path (a code bug; the claim
and the spec describe the evident intent). -/
theorem recovery_throws_on_missing_log (pre : Option Nat) (out err : List Char) :
    (executeAiderWithRecovery ⟨ProcOutcome.exited 0 out err, pre, Option.none⟩).1
      = Except.error JsError.typeErrorUndefinedLength := by
  rfl

set_option linter.unusedVariables false in
/-- C2: a suffix containing a well-formed summary block (and, per the
claim, also text matching an error pattern) is always classified as a
summary, never as an error signal: the error patterns are only tried
when no summary block matched.  (The error-pattern hypothesis is part
of the claim but is not needed: the summary block alone decides the
outcome.) -/
theorem classify_summary_wins_over_error (s : List Char)
    (hblock : ∃ u v w2 : List Char, s = u ++ sumOpen ++ v ++ sumClose ++ w2)
    (herr : ∃ ms ∈ errorPatternMatchList s, ms ≠ []) :
    (parseLatestConversation s).type = ContentType.summary := by
  obtain ⟨u, v, w2, hs⟩ := hblock
  have hinf : sumOpen <:+: s :=
    ⟨u, v ++ sumClose ++ w2, by rw [hs]; simp [List.append_assoc]⟩
  have hsome := splitFirst_isSome_infix hinf
  cases hsf : splitFirst sumOpen s with
  | none => rw [hsf] at hsome; simp at hsome
  | some p =>
    obtain ⟨b1, a1⟩ := p
    have hsound : s = b1 ++ sumOpen ++ a1 := splitFirst_sound hsf
    have hmin : b1.length ≤ u.length :=
      splitFirst_min hsf u (v ++ (sumClose ++ w2))
        (by rw [hs]; simp [List.append_assoc])
    have hp1a : b1 ++ sumOpen <+: s := ⟨a1, by rw [hsound]⟩
    have hp1b : u ++ sumOpen <+: s :=
      ⟨v ++ (sumClose ++ w2), by rw [hs]; simp [List.append_assoc]⟩
    have hp1 : b1 ++ sumOpen <+: u ++ sumOpen :=
      List.prefix_of_prefix_length_le hp1a hp1b (by simp; omega)
    obtain ⟨z0, hz0⟩ := hp1
    have e1 : (b1 ++ sumOpen) ++ a1 =
        (b1 ++ sumOpen) ++ (z0 ++ (v ++ (sumClose ++ w2))) := by
      calc (b1 ++ sumOpen) ++ a1 = s := by rw [hsound]
        _ = (u ++ sumOpen) ++ (v ++ (sumClose ++ w2)) := by
            rw [hs]; simp [List.append_assoc]
        _ = ((b1 ++ sumOpen) ++ z0) ++ (v ++ (sumClose ++ w2)) := by rw [hz0]
        _ = (b1 ++ sumOpen) ++ (z0 ++ (v ++ (sumClose ++ w2))) := by
            rw [List.append_assoc]
    have ha1 := List.append_cancel_left e1
    have hinf2 : sumClose <:+: a1 :=
      ⟨z0 ++ v, w2, by rw [ha1]; simp [List.append_assoc]⟩
    have hsome2 := splitFirst_isSome_infix hinf2
    cases hsf2 : splitFirst sumClose a1 with
    | none => rw [hsf2] at hsome2; simp at hsome2
    | some p2 =>
      obtain ⟨body, rest⟩ := p2
      have hbodies := summaryBodies_cons hsf hsf2
      cases hlast : (summaryBodies s).getLast? with
      | none =>
        exfalso
        have := List.getLast?_eq_none_iff.mp hlast
        rw [hbodies] at this
        cases this
      | some x =>
        simp [parseLatestConversation, hlast]

/-- C3: when no summary block matches, classification applies the five
error patterns in priority order, stops at the first pattern with at
least one match, selects that pattern's last match, and returns it with
whitespace runs collapsed (trimmed and collapsed by `wsNormalize`). -/
theorem classify_error_priority_last_collapsed (s : List Char) (k : Nat)
    (ms : List (List Char)) (m : List Char)
    (hsum : summaryBodies s = [])
    (hprev : ∀ j, j < k → (errorPatternMatchList s)[j]? = some [])
    (hk : (errorPatternMatchList s)[k]? = some ms)
    (hlast : ms.getLast? = some m) :
    parseLatestConversation s = ⟨ContentType.error, wsNormalize m⟩ := by
  have hfmp := firstMatchingPattern_eq (errorPatternMatchList s) k ms m hprev hk hlast
  simp [parseLatestConversation, hsum, hfmp]

/-- C4: a suffix containing two non-overlapping well-formed summary
blocks with bodies `A` then `B` (no closing tag inside the leading text
or the bodies, no opening tag between the blocks, no further block
after) is classified as the last block's body `B`, trimmed. -/
theorem classify_last_summary_block (u A v B w s : List Char)
    (hs : s = u ++ sumOpen ++ A ++ sumClose ++ v ++ sumOpen ++ B ++ sumClose ++ w)
    (hu : ¬ sumClose <:+: u) (hA : ¬ sumClose <:+: A)
    (hv : ¬ sumOpen <:+: v) (hB : ¬ sumClose <:+: B)
    (hw : summaryBodies w = []) :
    parseLatestConversation s = ⟨ContentType.summary, trimWS B⟩ := by
  obtain ⟨z, hz⟩ := summaryBodies_two_blocks u A v B w s hs hu hA hv hB hw
  simp [parseLatestConversation, hz]

/-- C5: in the reconciler's analysis, `successful` equals `summary
present AND error absent`, and a `None` classification yields
`succeeded = false` with both text fields empty. -/
theorem succeeded_iff_summary_and_no_error :
    (∀ (t : List Char) (r : RecoveredContent),
      (analyzeCompleteOutput t r).successful =
        ((analyzeCompleteOutput t r).summary.isSome &&
          (analyzeCompleteOutput t r).error.isNone))
    ∧ (∀ (t : List Char) (p : ParsedContent), p.type = ContentType.none →
        analyzeCompleteOutput t (RecoveredContent.parsed p) =
          ⟨Option.none, Option.none, false⟩) := by
  constructor
  · intro t r
    rfl
  · intro t p hp
    simp [analyzeCompleteOutput, hp]

/-- C6: when the child process exits with code 0 but the new log suffix
is exactly the traceback text of spec property P5 (which contains no
summary block and matches the generic `Error` pattern at
`"ValueError:"`), the reconciler yields `succeeded = false` with the
error text populated: exit-code success does not imply semantic
success. -/
theorem exit_zero_error_suffix_fails (out err : List Char) (pre : Option Nat)
    (content : List Char)
    (h : readWindow content (capturePreSize pre) =
      ("Traceback (most recent call last):\n...\nValueError: x is not defined").data) :
    (executeAiderWithRecovery ⟨ProcOutcome.exited 0 out err, pre, some content⟩).1
      = Except.ok ⟨Option.none, some (("ValueError: x is not defined").data), false⟩ := by
  have hp : parseLatestConversation
      (("Traceback (most recent call last):\n...\nValueError: x is not defined").data) =
      ⟨ContentType.error, ("ValueError: x is not defined").data⟩ := by decide
  have han : ∀ t : List Char,
      analyzeCompleteOutput t (RecoveredContent.parsed
        ⟨ContentType.error, ("ValueError: x is not defined").data⟩) =
      ⟨Option.none, some (("ValueError: x is not defined").data), false⟩ := by
    intro t
    simp only [analyzeCompleteOutput]
    decide
  simp [executeAiderWithRecovery, executeAider, extractNewChatContent, h, hp,
    RecoveredContent.contentProp, han]

/-- C7: on a nonzero exit code the process runner rejects with a message
containing the exit code and the captured stderr, the reconciler
propagates the rejection, the tool handler converts it into an
error-prefixed message containing that stderr, and the process is
spawned exactly once (no retry). -/
theorem nonzero_exit_propagates (code : Nat) (out errtxt : List Char) (pre : Option Nat)
    (post : Option (List Char)) (req : ToolRequest) (cwd : List Char)
    (h0 : code ≠ 0)
    (h1 : req.workingDir.getD cwd ≠ ("/").data)
    (h2 : req.files.length ≤ 10) :
    (executeAiderWithRecovery ⟨ProcOutcome.exited code out errtxt, pre, post⟩).1
        = Except.error (JsError.nonZeroExit code errtxt)
      ∧ errtxt <:+:
          (executeAiderCommand req cwd ⟨ProcOutcome.exited code out errtxt, pre, post⟩).1
      ∧ (Nat.repr code).data <:+:
          (executeAiderCommand req cwd ⟨ProcOutcome.exited code out errtxt, pre, post⟩).1
      ∧ (executeAiderCommand req cwd ⟨ProcOutcome.exited code out errtxt, pre, post⟩).2
          = [Effect.statLog, Effect.spawnProcess] := by
  have hrec : executeAiderWithRecovery ⟨ProcOutcome.exited code out errtxt, pre, post⟩
      = (Except.error (JsError.nonZeroExit code errtxt),
        [Effect.statLog, Effect.spawnProcess]) := by
    simp [executeAiderWithRecovery, executeAider, h0]
  have hcmd : executeAiderCommand req cwd ⟨ProcOutcome.exited code out errtxt, pre, post⟩
      = (("Error executing Aider ").data ++ modeName req.architectMode ++ (": ").data ++
          (JsError.nonZeroExit code errtxt).message,
        [Effect.statLog, Effect.spawnProcess]) := by
    simp [executeAiderCommand, h1, Nat.not_lt.mpr h2, hrec]
  refine ⟨by rw [hrec], ?_, ?_, by rw [hcmd]⟩
  · rw [hcmd]
    refine ⟨("Error executing Aider ").data ++ modeName req.architectMode ++ (": ").data ++
      ("Aider CLI exited with code ").data ++ (Nat.repr code).data ++ (": ").data, [], ?_⟩
    simp [JsError.message, List.append_assoc]
  · rw [hcmd]
    refine ⟨("Error executing Aider ").data ++ modeName req.architectMode ++ (": ").data ++
      ("Aider CLI exited with code ").data, (": ").data ++ errtxt, ?_⟩
    simp [JsError.message, List.append_assoc]

/-- C8: if the file shrank below `preSize`, the slice taken by
`extractNewChatContent` is the empty string (never a negative-length
slice or an exception), and the parsed result is the `None`
classification with empty content. -/
theorem read_window_shrink_empty (content : List Char) (preSize : Nat)
    (h : content.length < preSize) :
    readWindow content preSize = []
      ∧ extractNewChatContent (some content) preSize =
          RecoveredContent.parsed ⟨ContentType.none, []⟩ := by
  have h1 : readWindow content preSize = [] :=
    List.drop_eq_nil_of_le (Nat.le_of_lt h)
  refine ⟨h1, ?_⟩
  simp only [extractNewChatContent, h1]
  rfl

/-- C9: a well-formed summary block whose opening tag sits at index 0 of
the suffix (no literal line feed before it inside the suffix) is never
recognised as a summary, because the pattern requires `"\n"` immediately
before `"<summary>"`; such a suffix falls through to the error patterns
or `None`. -/
theorem summary_at_index_zero_unrecognized (body rest : List Char)
    (h : ¬ sumOpen <:+: (("<summary>").data ++ body ++ sumClose ++ rest)) :
    (parseLatestConversation (("<summary>").data ++ body ++ sumClose ++ rest)).type
      ≠ ContentType.summary := by
  have hnone : splitFirst sumOpen (("<summary>").data ++ body ++ sumClose ++ rest) = none := by
    apply splitFirst_none_of_no_occ
    intro x y hxy
    exact h ⟨x, y, hxy.symm⟩
  have hsum := summaryBodies_nil_of_no_open hnone
  simp only [parseLatestConversation, hsum]
  cases hfmp : firstMatchingPattern
      (errorPatternMatchList (("<summary>").data ++ body ++ sumClose ++ rest)) with
  | none => simp
  | some e => simp

/-- C10 counterexample: a tool invocation with 11 files *and* the root
working directory returns the root-directory error text, not the
"Too many files" text, so the claim as stated (every invocation with
more than 10 files yields the too-many-files text) fails. -/
theorem too_many_files_root_dir_counterexample :
    10 < (List.replicate 11 (("f").data)).length
      ∧ (executeAiderCommand ⟨some (("/").data), List.replicate 11 (("f").data), false⟩
          (("/tmp").data)
          ⟨ProcOutcome.exited 0 [] [], Option.none, Option.none⟩).1 ≠ tooManyFilesText
      ∧ (executeAiderCommand ⟨some (("/").data), List.replicate 11 (("f").data), false⟩
          (("/tmp").data)
          ⟨ProcOutcome.exited 0 [] [], Option.none, Option.none⟩).1 = rootErrorText := by
  refine ⟨by decide, ?_, ?_⟩ <;> decide

/-- C10 (amended): for every tool invocation whose files list has more
than 10 entries and whose target directory is not the root directory,
`executeAiderCommand` returns the "Too many files" error text
immediately, with no side effects: no child process is spawned and the
chat-history log is neither statted nor read. -/
theorem too_many_files_early_return (req : ToolRequest) (cwd : List Char) (w : World)
    (h1 : 10 < req.files.length)
    (h2 : req.workingDir.getD cwd ≠ ("/").data) :
    executeAiderCommand req cwd w = (tooManyFilesText, []) := by
  simp [executeAiderCommand, h1, h2]

/-- Witness for C2 at a concrete suffix containing both a summary block
and an error-pattern match. -/
theorem classify_summary_wins_over_error_witness :
    (parseLatestConversation (("\n<summary>done</summary>\nValueError: boom").data)).type
      = ContentType.summary :=
  classify_summary_wins_over_error _
    ⟨[], ("done").data, ("\nValueError: boom").data, by decide⟩
    ⟨generalErrorMatches (("\n<summary>done</summary>\nValueError: boom").data),
      by simp [errorPatternMatchList], by decide⟩

/-- Witness for C3 at the suffix of spec Scenario C; the classifier
returns exactly the matched error line. -/
theorem classify_error_priority_last_collapsed_witness :
    parseLatestConversation (("litellm.RateLimitError: You exceeded your current quota").data)
      = ⟨ContentType.error,
          ("litellm.RateLimitError: You exceeded your current quota").data⟩ :=
  (classify_error_priority_last_collapsed
    (("litellm.RateLimitError: You exceeded your current quota").data) 0
    (litellmMatches (("litellm.RateLimitError: You exceeded your current quota").data))
    (("litellm.RateLimitError: You exceeded your current quota").data)
    (by decide)
    (fun j hj => absurd hj (Nat.not_lt_zero j))
    rfl
    (by decide)).trans (by decide)

/-- Witness for C4 at a concrete suffix with blocks "A" then "B". -/
theorem classify_last_summary_block_witness :
    parseLatestConversation
        (("log\n<summary>A</summary> mid \n<summary>B</summary>\ntail").data)
      = ⟨ContentType.summary, ("B").data⟩ :=
  (classify_last_summary_block (("log").data) (("A").data) ((" mid ").data) (("B").data)
    (("\ntail").data) _ (by decide) (by decide) (by decide) (by decide) (by decide)
    (by decide)).trans (by decide)

/-- Witness for C5 at a concrete `None` classification. -/
theorem succeeded_iff_summary_and_no_error_witness :
    analyzeCompleteOutput [] (RecoveredContent.parsed ⟨ContentType.none, ("x").data⟩)
      = ⟨Option.none, Option.none, false⟩ :=
  succeeded_iff_summary_and_no_error.2 [] ⟨ContentType.none, ("x").data⟩ rfl

/-- Witness for C6 at the concrete world of spec property P5. -/
theorem exit_zero_error_suffix_fails_witness :
    (executeAiderWithRecovery ⟨ProcOutcome.exited 0 [] [], Option.none,
        some (("Traceback (most recent call last):\n...\nValueError: x is not defined").data)⟩).1
      = Except.ok ⟨Option.none, some (("ValueError: x is not defined").data), false⟩ :=
  exit_zero_error_suffix_fails [] [] Option.none _ rfl

/-- Witness for C7 at exit code 1 with stderr "command not found" (spec
Scenario D). -/
theorem nonzero_exit_propagates_witness :
    ("command not found").data <:+:
      (executeAiderCommand ⟨some (("/tmp/proj").data), [], false⟩ (("/tmp").data)
        ⟨ProcOutcome.exited 1 [] (("command not found").data),
          Option.none, Option.none⟩).1 :=
  (nonzero_exit_propagates 1 [] (("command not found").data) Option.none Option.none
    ⟨some (("/tmp/proj").data), [], false⟩ (("/tmp").data)
    (by decide) (by decide) (by decide)).2.1

/-- Witness for C8 at a 3-character file and `preSize = 5`. -/
theorem read_window_shrink_empty_witness :
    readWindow (("abc").data) 5 = []
      ∧ extractNewChatContent (some (("abc").data)) 5 =
          RecoveredContent.parsed ⟨ContentType.none, []⟩ :=
  read_window_shrink_empty (("abc").data) 5 (by decide)

/-- Witness for C9 at a suffix that is exactly one block starting at
index 0. -/
theorem summary_at_index_zero_unrecognized_witness :
    (parseLatestConversation (("<summary>done</summary>").data)).type
      ≠ ContentType.summary :=
  summary_at_index_zero_unrecognized (("done").data) [] (by decide)

/-- Witness for the amended C10 at a concrete 11-file request with a
non-root working directory. -/
theorem too_many_files_early_return_witness :
    executeAiderCommand ⟨some (("/home/p").data), List.replicate 11 (("f").data), false⟩
        (("/tmp").data) ⟨ProcOutcome.exited 0 [] [], Option.none, Option.none⟩
      = (tooManyFilesText, []) :=
  too_many_files_early_return _ _ _ (by decide) (by decide)

end AiderMcp
